import Mathlib

/-!
# Inventory admin page: request orchestration and form synchronisation

A shallow embedding of `service/static/js/rest_api.js`.  The page state the script touches is
the six text inputs of the form and the child nodes of the `#flash_message` area and of the
`#search_results` container.
Every click handler is a function from the page to the page after the synchronous part of the
handler together with the request handed to `$.ajax`; every `ajax.done` / `ajax.fail` callback
is a function from the page and the response to a `Completion` (the page when the callback
stopped and the error it raised, if any).

Functions of the browser and of jQuery that the script calls but does not define (`parseInt`,
`JSON.stringify`, the coercion of the `.val(v)` setter, the string conversion of a template
literal) are fields of `Browser`; every theorem holds for all of them.

jQuery's `.append(string)` is modelled by `jq_append`: a string without `<` and without a
character reference becomes a text node; any other string is handed to the HTML parser and the
nodes it builds are appended.  The parser is modelled on a subset of markup on which the tree is
determined by the nesting of the tags (`parseFragment`); markup outside the subset is kept as an
`unparsed` node, about which nothing is claimed.
-/

namespace Inventory

/-! ## Page state -/

/-- The six text inputs of the form, named after their element ids. -/
structure Form where
  inventory_id : String
  inventory_name : String
  inventory_category : String
  inventory_quantity : String
  inventory_condition : String
  inventory_restock_level : String
  deriving DecidableEq

/-- A child node of `#flash_message` or `#search_results`: a text node, an element with its
attributes and children, or the nodes the browser builds from markup outside the modelled
subset. -/
inductive Node where
  | text (data : String)
  | elem (tag : String) (attrs : List (String × String)) (kids : List Node)
  | unparsed (markup : String)

mutual
def Node.decEq : (a b : Node) → Decidable (a = b)
  | .text s, .text t => if h : s = t then isTrue (by rw [h]) else isFalse (by intro e; cases e; exact h rfl)
  | .unparsed s, .unparsed t =>
    if h : s = t then isTrue (by rw [h]) else isFalse (by intro e; cases e; exact h rfl)
  | .elem t1 a1 k1, .elem t2 a2 k2 =>
    if ht : t1 = t2 then
      if ha : a1 = a2 then
        match Node.decEqList k1 k2 with
        | isTrue hk => isTrue (by rw [ht, ha, hk])
        | isFalse hk => isFalse (by intro e; cases e; exact hk rfl)
      else isFalse (by intro e; cases e; exact ha rfl)
    else isFalse (by intro e; cases e; exact ht rfl)
  | .text _, .elem _ _ _ => isFalse (by intro e; cases e)
  | .text _, .unparsed _ => isFalse (by intro e; cases e)
  | .elem _ _ _, .text _ => isFalse (by intro e; cases e)
  | .elem _ _ _, .unparsed _ => isFalse (by intro e; cases e)
  | .unparsed _, .text _ => isFalse (by intro e; cases e)
  | .unparsed _, .elem _ _ _ => isFalse (by intro e; cases e)
def Node.decEqList : (as bs : List Node) → Decidable (as = bs)
  | [], [] => isTrue rfl
  | [], _ :: _ => isFalse (by intro e; cases e)
  | _ :: _, [] => isFalse (by intro e; cases e)
  | a :: as, b :: bs =>
    match Node.decEq a b with
    | isTrue h =>
      match Node.decEqList as bs with
      | isTrue hs => isTrue (by rw [h, hs])
      | isFalse hs => isFalse (by intro e; cases e; exact hs rfl)
    | isFalse h => isFalse (by intro e; cases e; exact h rfl)
end

instance : DecidableEq Node := Node.decEq

/-- The part of the document the script reads and writes: the form, the child nodes of
`#flash_message` and the child nodes of `#search_results`. -/
structure Page where
  form : Form
  flash : List Node
  search_results : List Node
  deriving DecidableEq

/-- A decoded inventory record as it arrives from the backend; `V` is the type of decoded
JSON values. -/
structure Record (V : Type) where
  id : V
  inventory_name : V
  category : V
  quantity : V
  condition : V
  restock_level : V

/-- A value stored under a key of the object literal that create and update serialise: the text
of an input, or the result of `parseInt`. -/
inductive BodyValue (V : Type) where
  | text (s : String)
  | number (n : V)

/-- Browser and jQuery functions used by the script. -/
structure Browser (V : Type) where
  /-- Models `parseInt(s, 10)`. -/
  parseInt : String → V
  /-- Models `JSON.stringify` on an object literal, given as its key/value pairs in order. -/
  stringify : List (String × BodyValue V) → String
  /-- The text an input holds after `.val(v)`. -/
  valText : V → String
  /-- The text `v` contributes to a template literal. -/
  toStr : V → String

/-- The options object passed to `$.ajax`. -/
structure Request where
  type : String
  url : String
  contentType : String
  data : String
  deriving DecidableEq

/-- The decoded body of a failed response. `message` is `none` when the decoded body has no
such property. -/
structure ErrorJSON where
  message : Option String
  deriving DecidableEq

/-- The jqXHR object a `fail` callback receives. `responseJSON` is `none` (the property is
undefined) when the body is missing or is not valid JSON. -/
structure FailedXHR where
  responseText : String
  responseJSON : Option ErrorJSON
  deriving DecidableEq

/-- Errors a callback can raise. -/
inductive JSError where
  /-- Reading a property of `undefined`. -/
  | typeError
  deriving DecidableEq

/-- How a callback ended: the page at the moment it returned or raised, and the error raised. -/
structure Completion where
  page : Page
  raised : Option JSError
  deriving DecidableEq

/-- The variable `root`. -/
def root : String := "/api/inventory"

/-! ## jQuery `.append(string)` and the HTML parser behind it

The parser is modelled on the following subset of markup.  Text may hold any character but `<`,
`&`, carriage return and the null character.  A start tag is `<name` followed by attributes of the
form ` name="value"` with distinct names, and `>`; an end tag is `</name>`; names are lower-case.
Tags must be properly nested, elements are limited to the table elements and a few phrasing
elements, and each element may only hold the children the HTML content model gives it, so that the
browser inserts, moves or drops nothing.  On this subset the nodes are read off the nesting. -/

/-- The lexical units of markup. -/
inductive Token where
  | text (data : String)
  | start (tag : String) (attrs : List (String × String))
  | close (tag : String)

/-- A character that stands for itself in text: not `<`, not `&`, not a carriage return (the
parser turns it into a line feed) and not the null character (the parser drops it). -/
def textChar (c : Char) : Bool := c != '<' && c != '&' && c != '\x0d' && c != '\x00'

/-- A character that stands for itself in a double-quoted attribute value. -/
def valueChar (c : Char) : Bool := textChar c && c != '\x22' && c != '>'

/-- A character of a tag or attribute name. -/
def nameChar (c : Char) : Bool := c.isLower || c.isDigit || c == '-'

/-- A name starts with a lower-case letter and goes on with name characters. -/
def validName (cs : List Char) : Bool :=
  match cs with
  | [] => false
  | c :: _ => c.isLower && cs.all nameChar

/-- Where the attribute reader stands: before an attribute, inside its name, before the opening
quote, inside the value. -/
inductive AttrMode where
  | gap
  | key (acc : List Char)
  | quote (key : List Char)
  | value (key acc : List Char)

/-- Reads the attributes of a start tag, one character at a time. -/
def lexAttrs : AttrMode → List Char → Option (List (String × String))
  | .gap, [] => some []
  | .gap, c :: cs => if c = ' ' then lexAttrs (.key []) cs else none
  | .key _, [] => none
  | .key acc, c :: cs =>
    if c = '=' then (if validName acc then lexAttrs (.quote acc) cs else none)
    else lexAttrs (.key (acc ++ [c])) cs
  | .quote _, [] => none
  | .quote k, c :: cs => if c = '\x22' then lexAttrs (.value k []) cs else none
  | .value _ _, [] => none
  | .value k acc, c :: cs =>
    if c = '\x22' then
      (if acc.all valueChar then
        (lexAttrs .gap cs).map (fun rest => (String.mk k, String.mk acc) :: rest)
       else none)
    else lexAttrs (.value k (acc ++ [c])) cs

/-- No attribute name occurs twice (the parser would drop the later ones). -/
def distinctKeys (attrs : List (String × String)) : Bool :=
  decide (attrs.map Prod.fst).Nodup

/-- Reads what stands between `<` and `>`. -/
def lexTag (body : List Char) : Option Token :=
  match body with
  | '/' :: name => if validName name then some (.close (String.mk name)) else none
  | _ =>
    let name := body.takeWhile nameChar
    if validName name then
      match lexAttrs .gap (body.dropWhile nameChar) with
      | some attrs => if distinctKeys attrs then some (.start (String.mk name) attrs) else none
      | none => none
    else none

/-- Where the tokenizer stands: in text or inside a tag, with the characters read so far. -/
inductive LexMode where
  | text (acc : List Char)
  | tag (acc : List Char)

/-- Emits the text read so far, if any. -/
def flushText (acc : List Char) (rest : Option (List Token)) : Option (List Token) :=
  if acc = [] then rest
  else if acc.all textChar then rest.map (fun ts => Token.text (String.mk acc) :: ts)
  else none

/-- The tokenizer, one character at a time; `none` outside the subset. -/
def lex : LexMode → List Char → Option (List Token)
  | .text acc, [] => flushText acc (some [])
  | .text acc, c :: cs =>
    if c = '<' then flushText acc (lex (.tag []) cs) else lex (.text (acc ++ [c])) cs
  | .tag _, [] => none
  | .tag acc, c :: cs =>
    if c = '>' then
      match lexTag acc with
      | some t => (lex (.text []) cs).map (fun ts => t :: ts)
      | none => none
    else lex (.tag (acc ++ [c])) cs

/-- Phrasing elements of the subset. -/
def phrasing : List String := ["b", "i", "em", "strong", "span"]

/-- Table cell elements. -/
def cellTags : List String := ["td", "th"]

/-- Parents that may hold text: the fragment itself (tag `""`), cells and phrasing elements. -/
def textAllowed (parent : String) : Bool :=
  parent == "" || cellTags.contains parent || phrasing.contains parent

/-- The elements a parent may hold. -/
def allowedChild (parent child : String) : Bool :=
  if parent == "" then phrasing.contains child || child == "table"
  else if cellTags.contains parent || phrasing.contains parent then phrasing.contains child
  else if parent == "table" then child == "thead" || child == "tbody"
  else if parent == "thead" || parent == "tbody" then child == "tr"
  else if parent == "tr" then cellTags.contains child
  else false

/-- An open element with the children it has so far. -/
structure Frame where
  tag : String
  attrs : List (String × String)
  kids : List Node

/-- Adds a child at the end. -/
def Frame.push (f : Frame) (n : Node) : Frame := { f with kids := f.kids ++ [n] }

/-- The tree builder: `cur` is the innermost open element, `outer` the open elements around it,
the fragment last. -/
def build : List Token → Frame → List Frame → Option (List Node)
  | [], cur, [] => some cur.kids
  | [], _, _ :: _ => none
  | .text s :: ts, cur, outer =>
    if textAllowed cur.tag then build ts (cur.push (.text s)) outer else none
  | .start tag attrs :: ts, cur, outer =>
    if allowedChild cur.tag tag then
      build ts { tag := tag, attrs := attrs, kids := [] } (cur :: outer)
    else none
  | .close _ :: _, _, [] => none
  | .close tag :: ts, cur, parent :: outer =>
    if tag = cur.tag then build ts (parent.push (.elem cur.tag cur.attrs cur.kids)) outer
    else none

/-- The nodes the parser builds from markup of the subset; `none` for other markup. -/
def parseFragment (markup : String) : Option (List Node) :=
  match lex (.text []) markup.data with
  | some toks => build toks { tag := "", attrs := [], kids := [] } []
  | none => none

/-- The class `\w` of a JavaScript regular expression. -/
def wordChar (c : Char) : Bool := c.isAlphanum || c == '_'

/-- Matches `\w+;` at the start of the characters. -/
def entityTail (cs : List Char) : Bool :=
  !(cs.takeWhile wordChar).isEmpty && (cs.dropWhile wordChar).head? == some ';'

/-- jQuery's test `rhtml = /<|&#?\w+;/`: the string holds `<` or a character reference. -/
def rhtml : List Char → Bool
  | [] => false
  | c :: cs =>
    c == '<' ||
    (c == '&' && entityTail (match cs with
      | '#' :: t => t
      | _ => cs)) ||
    rhtml cs

/-- Models jQuery `.append(x)` for `x` a string or `undefined`, on the child nodes of the target:
`undefined` and the empty string add nothing, a string that fails `rhtml` is added as one text
node, any other string is parsed and the nodes built from it are added. -/
def jq_append (content : List Node) (x : Option String) : List Node :=
  match x with
  | none => content
  | some s =>
    if s = "" then content
    else if !rhtml s.data then content ++ [.text s]
    else
      match parseFragment s with
      | some nodes => content ++ nodes
      | none => content ++ [.unparsed s]

/-! ## Utility functions -/

/-- Models `update_form_data(res)`: all six inputs are set from the record. -/
def update_form_data {V : Type} (b : Browser V) (res : Record V) (p : Page) : Page :=
  { p with form :=
      { inventory_id := b.valText res.id
        inventory_name := b.valText res.inventory_name
        inventory_category := b.valText res.category
        inventory_quantity := b.valText res.quantity
        inventory_condition := b.valText res.condition
        inventory_restock_level := b.valText res.restock_level } }

/-- Models `clear_form_data()`: the five data inputs are emptied; `#inventory_id` is not
written, although the comment above the function speaks of all form fields. -/
def clear_form_data (p : Page) : Page :=
  { p with form :=
      { inventory_id := p.form.inventory_id
        inventory_name := ""
        inventory_category := ""
        inventory_quantity := ""
        inventory_condition := ""
        inventory_restock_level := "" } }

/-- Models `$("#flash_message").empty()`: all child nodes are removed. -/
def flash_empty (p : Page) : Page := { p with flash := [] }

/-- Models `$("#flash_message").append(message)`. -/
def flash_append (message : Option String) (p : Page) : Page :=
  { p with flash := jq_append p.flash message }

/-- Models `flash_message(message)`: empty the area, then append. -/
def flash_message (message : Option String) (p : Page) : Page :=
  flash_append message (flash_empty p)

/-- Models the argument expression `res.responseJSON.message`: it raises when `responseJSON` is
undefined. -/
def responseMessage (res : FailedXHR) : Except JSError (Option String) :=
  match res.responseJSON with
  | some json => .ok json.message
  | none => .error .typeError

/-- Models the statement `flash_message(res.responseJSON.message)`. -/
def flash_response_message (res : FailedXHR) (p : Page) : Completion :=
  match responseMessage res with
  | .ok message => { page := flash_message message p, raised := none }
  | .error e => { page := p, raised := some e }

/-! ## Create -/

/-- The object literal `data` of the create and update handlers. -/
def form_data {V : Type} (b : Browser V) (f : Form) : List (String × BodyValue V) :=
  let name := f.inventory_name
  let category := f.inventory_category
  let quantity := b.parseInt f.inventory_quantity
  let condition := f.inventory_condition
  let restock_level := b.parseInt f.inventory_restock_level
  [ ("inventory_name", .text name),
    ("category", .text category),
    ("quantity", .number quantity),
    ("condition", .text condition),
    ("restock_level", .number restock_level) ]

/-- Models the `#create-btn` click handler. The `url` option is an ordinary double-quoted string,
so it is the seven characters dollar, brace, r, o, o, t, brace. -/
def create_click {V : Type} (b : Browser V) (p : Page) : Page × List Request :=
  let data := form_data b p.form
  let p := flash_empty p
  (p, [{ type := "POST", url := "$\x7broot\x7d", contentType := "application/json",
         data := b.stringify data }])

/-- Models create `ajax.done`. -/
def create_done {V : Type} (b : Browser V) (res : Record V) (p : Page) : Completion :=
  { page := flash_message (some "Success") (update_form_data b res p), raised := none }

/-- Models create `ajax.fail`. -/
def create_fail (res : FailedXHR) (p : Page) : Completion :=
  flash_response_message res p

/-! ## Update -/

/-- Models the `#update-btn` click handler. -/
def update_click {V : Type} (b : Browser V) (p : Page) : Page × List Request :=
  let inventory_id := p.form.inventory_id
  let data := form_data b p.form
  let p := flash_empty p
  (p, [{ type := "PUT", url := root ++ "/" ++ inventory_id, contentType := "application/json",
         data := b.stringify data }])

/-- Models update `ajax.done`. -/
def update_done {V : Type} (b : Browser V) (res : Record V) (p : Page) : Completion :=
  { page := flash_message (some "Success") (update_form_data b res p), raised := none }

/-- Models update `ajax.fail`. -/
def update_fail (res : FailedXHR) (p : Page) : Completion :=
  flash_response_message res p

/-! ## Retrieve -/

/-- Models the `#retrieve-btn` click handler. -/
def retrieve_click (p : Page) : Page × List Request :=
  let inventory_id := p.form.inventory_id
  let p := flash_empty p
  (p, [{ type := "GET", url := root ++ "/" ++ inventory_id, contentType := "application/json",
         data := "" }])

/-- Models retrieve `ajax.done`. -/
def retrieve_done {V : Type} (b : Browser V) (res : Record V) (p : Page) : Completion :=
  { page := flash_message (some "Success") (update_form_data b res p), raised := none }

/-- Models retrieve `ajax.fail`: the form is cleared first, then the message is read. -/
def retrieve_fail (res : FailedXHR) (p : Page) : Completion :=
  flash_response_message res (clear_form_data p)

/-! ## Delete -/

/-- Models the `#delete-btn` click handler. -/
def delete_click (p : Page) : Page × List Request :=
  let inventory_id := p.form.inventory_id
  let p := flash_empty p
  (p, [{ type := "DELETE", url := root ++ "/" ++ inventory_id, contentType := "application/json",
         data := "" }])

/-- Models delete `ajax.done`; the response body is not used. -/
def delete_done {R : Type} (_res : R) (p : Page) : Completion :=
  { page := flash_message (some "Inventory has been Deleted!") (clear_form_data p), raised := none }

/-- Models delete `ajax.fail`; the jqXHR is not used. -/
def delete_fail (_res : FailedXHR) (p : Page) : Completion :=
  { page := flash_message (some "Server error!") p, raised := none }

/-! ## Clear -/

/-- Models the `#clear-btn` click handler. -/
def clear_click (p : Page) : Page :=
  let p := { p with form := { p.form with inventory_id := "" } }
  let p := flash_empty p
  clear_form_data p

/-! ## Restock -/

/-- Models the `#restock-btn` click handler. -/
def restock_click (p : Page) : Page × List Request :=
  let inventory_id := p.form.inventory_id
  let p := flash_empty p
  (p, [{ type := "PUT", url := root ++ "/" ++ inventory_id ++ "/restock",
         contentType := "application/json", data := "" }])

/-- Models restock `ajax.done`. -/
def restock_done {V : Type} (b : Browser V) (res : Record V) (p : Page) : Completion :=
  { page := flash_message (some "Success") (update_form_data b res p), raised := none }

/-- Models restock `ajax.fail`: the form is cleared first, then the message is read. -/
def restock_fail (res : FailedXHR) (p : Page) : Completion :=
  flash_response_message res (clear_form_data p)

/-! ## Search -/

/-- JavaScript truthiness of a string: every string but the empty one is truthy. -/
def truthy (s : String) : Bool := s != ""

/-- Models the construction of `queryString` in the `#search-btn` click handler. -/
def search_queryString (name category quantity condition restock_level : String) : String :=
  let queryString := ""
  let queryString :=
    if truthy name then queryString ++ ("name=" ++ name) else queryString
  let queryString :=
    if truthy category then
      if queryString.length > 0 then queryString ++ ("&category=" ++ category)
      else queryString ++ ("category=" ++ category)
    else queryString
  let queryString :=
    if truthy quantity then
      if queryString.length > 0 then queryString ++ ("&quantity=" ++ quantity)
      else queryString ++ ("quantity=" ++ quantity)
    else queryString
  let queryString :=
    if truthy condition then
      if queryString.length > 0 then queryString ++ ("&condition=" ++ condition)
      else queryString ++ ("condition=" ++ condition)
    else queryString
  let queryString :=
    if truthy restock_level then
      if queryString.length > 0 then queryString ++ ("&restock_level=" ++ restock_level)
      else queryString ++ ("restock_level=" ++ restock_level)
    else queryString
  queryString

/-- Models the `#search-btn` click handler. -/
def search_click (p : Page) : Page × List Request :=
  let name := p.form.inventory_name
  let category := p.form.inventory_category
  let quantity := p.form.inventory_quantity
  let condition := p.form.inventory_condition
  let restock_level := p.form.inventory_restock_level
  let queryString := search_queryString name category quantity condition restock_level
  let p := flash_empty p
  (p, [{ type := "GET", url := root ++ "?" ++ queryString, contentType := "application/json",
         data := "" }])

/-- The markup the table starts with: the opening tag and the header row. -/
def table_head : String :=
  let table := "<table class=\"table table-striped\" cellpadding=\"10\">"
  let table := table ++ "<thead><tr>"
  let table := table ++ "<th class=\"col-md-2\">ID</th>"
  let table := table ++ "<th class=\"col-md-2\">Name</th>"
  let table := table ++ "<th class=\"col-md-2\">Category</th>"
  let table := table ++ "<th class=\"col-md-2\">Quantity</th>"
  let table := table ++ "<th class=\"col-md-2\">Condition</th>"
  let table := table ++ "<th class=\"col-md-2\">Restock_level</th>"
  let table := table ++ "</tr></thead><tbody>"
  table

/-- The template literal appended for the record at index `i`. -/
def table_row {V : Type} (b : Browser V) (i : Nat) (inventory : Record V) : String :=
  "<tr id=\"row_" ++ toString i ++ "\"><td>" ++ b.toStr inventory.id ++ "</td><td>" ++
    b.toStr inventory.inventory_name ++ "</td><td>" ++ b.toStr inventory.category ++
    "</td><td>" ++ b.toStr inventory.quantity ++ "</td><td>" ++ b.toStr inventory.condition ++
    "</td><td>" ++ b.toStr inventory.restock_level ++ "</td></tr>"

/-- Models the `for` loop of search `ajax.done`, started at index `i` with the records from
index `i` on still to visit. The state is `table` and `firstInventory`; the initial value `""`
of `firstInventory` is `none`. -/
def search_loop {V : Type} (b : Browser V) :
    List (Record V) → Nat → String × Option (Record V) → String × Option (Record V)
  | [], _, st => st
  | inventory :: rest, i, (table, firstInventory) =>
    let table := table ++ table_row b i inventory
    let firstInventory := if i == 0 then some inventory else firstInventory
    search_loop b rest (i + 1) (table, firstInventory)

/-- Models search `ajax.done` for a response that is an array of record objects: the container
is emptied, the markup is built and appended, the first record is copied to the form. The test
`firstInventory != ""` is true for a record object and false for the initial `""`. -/
def search_done {V : Type} (b : Browser V) (res : List (Record V)) (p : Page) : Completion :=
  let p := { p with search_results := [] }
  let (table, firstInventory) := search_loop b res 0 (table_head, none)
  let table := table ++ "</tbody></table>"
  let p := { p with search_results := jq_append p.search_results (some table) }
  let p :=
    match firstInventory with
    | some inventory => update_form_data b inventory p
    | none => p
  { page := flash_message (some "Success") p, raised := none }

/-- Models search `ajax.fail`. -/
def search_fail (res : FailedXHR) (p : Page) : Completion :=
  flash_response_message res p

/-! ## Descriptions used in the statements -/

/-- The five search keys with their values, in emission order. -/
def search_fields (name category quantity condition restock_level : String) :
    List (String × String) :=
  [("name", name), ("category", category), ("quantity", quantity), ("condition", condition),
   ("restock_level", restock_level)]

/-- The terms `key=value` of the populated (non-empty) fields, in emission order. -/
def populated_terms (name category quantity condition restock_level : String) : List String :=
  ((search_fields name category quantity condition restock_level).filter
    (fun kv => kv.2 ≠ "")).map (fun kv => kv.1 ++ "=" ++ kv.2)

/-- A value is blank when it is empty or holds only whitespace characters. -/
def blank (s : String) : Bool := s.data.all Char.isWhitespace

/-- The filter as the data model describes it: the terms of the fields whose value is not
blank, in emission order. -/
def nonblank_terms (name category quantity condition restock_level : String) : List String :=
  ((search_fields name category quantity condition restock_level).filter
    (fun kv => !blank kv.2)).map (fun kv => kv.1 ++ "=" ++ kv.2)

/-- The content that shows the string `s` as it is: one text node holding `s`, and nothing for
the empty string. -/
def text_nodes (s : String) : List Node := if s = "" then [] else [.text s]

/-- A string is plain when each of its characters stands for itself in markup. -/
def plain (s : String) : Bool := s.data.all textChar

/-- The six values of a record, as the template literal writes them, are plain. -/
def plain_record {V : Type} (b : Browser V) (r : Record V) : Bool :=
  [r.id, r.inventory_name, r.category, r.quantity, r.condition, r.restock_level].all
    (fun v => plain (b.toStr v))

/-- The captions of the six header cells, in column order. -/
def header_cells : List String :=
  ["ID", "Name", "Category", "Quantity", "Condition", "Restock_level"]

/-- The header row: one `th` cell per caption. -/
def header_row : Node :=
  .elem "tr" [] (header_cells.map (fun c => .elem "th" [("class", "col-md-2")] [.text c]))

/-- The body row of the record at index `i`: a `tr` element with id `row_i` holding six `td`
cells that show the record's id, inventory_name, category, quantity, condition and
restock_level. -/
def body_row {V : Type} (b : Browser V) (i : Nat) (r : Record V) : Node :=
  .elem "tr" [("id", "row_" ++ toString i)]
    ([r.id, r.inventory_name, r.category, r.quantity, r.condition, r.restock_level].map
      (fun v => .elem "td" [] (text_nodes (b.toStr v))))

/-- One body row per record, numbered from 0 in response order. -/
def body_rows {V : Type} (b : Browser V) (res : List (Record V)) : List Node :=
  res.enum.map (fun ir => body_row b ir.1 ir.2)

/-- The result table: the header with its one row, then the body with the given rows. -/
def table_of (rows : List Node) : Node :=
  .elem "table" [("class", "table table-striped"), ("cellpadding", "10")]
    [.elem "thead" [] [header_row], .elem "tbody" [] rows]

/-- The result table of a response. -/
def result_table {V : Type} (b : Browser V) (res : List (Record V)) : Node :=
  table_of (body_rows b res)

/-! ## Serialisation, used to describe the markup the parser model covers -/

/-- The attributes of a start tag, written out. -/
def renderAttrs : List (String × String) → List Char
  | [] => []
  | kv :: rest => ' ' :: kv.1.data ++ '=' :: '\x22' :: kv.2.data ++ '\x22' :: renderAttrs rest

mutual
/-- A node written out as markup. -/
def render : Node → List Char
  | .text s => s.data
  | .elem tag attrs kids =>
    '<' :: (tag.data ++ renderAttrs attrs) ++
      '>' :: (renderList kids ++ '<' :: '/' :: tag.data ++ ['>'])
  | .unparsed m => m.data
/-- A list of nodes written out as markup. -/
def renderList : List Node → List Char
  | [] => []
  | n :: ns => render n ++ renderList ns
end

mutual
/-- The tokens of a node. -/
def toks : Node → List Token
  | .text s => [.text s]
  | .elem tag attrs kids => .start tag attrs :: (toksList kids ++ [.close tag])
  | .unparsed _ => []
/-- The tokens of a list of nodes. -/
def toksList : List Node → List Token
  | [] => []
  | n :: ns => toks n ++ toksList ns
end

/-- Text nodes. -/
def Node.isText : Node → Bool
  | .text _ => true
  | _ => false

/-- Two text nodes stand next to each other (written out, they would read as one). -/
def adjacentText : List Node → Bool
  | [] => false
  | [_] => false
  | a :: b :: ns => (a.isText && b.isText) || adjacentText (b :: ns)

/-- Attributes of the subset: valid names, plain values, no name twice. -/
def validAttrs (attrs : List (String × String)) : Bool :=
  attrs.all (fun kv => validName kv.1.data && kv.2.data.all valueChar) && distinctKeys attrs

mutual
/-- A node of the subset, as a child of `parent`. -/
def validNode (parent : String) : Node → Bool
  | .text s => textAllowed parent && !s.data.isEmpty && s.data.all textChar
  | .elem tag attrs kids =>
    allowedChild parent tag && validName tag.data && validAttrs attrs &&
      validList tag kids && !adjacentText kids
  | .unparsed _ => false
/-- Nodes of the subset, as children of `parent`. -/
def validList (parent : String) : List Node → Bool
  | [] => true
  | n :: ns => validNode parent n && validList parent ns
end

/-- A fragment of the subset. -/
def validForest (ns : List Node) : Bool := validList "" ns && !adjacentText ns

/-- Text can only be followed by a tag or by the end of the markup. -/
def boundary (rest : List Char) : Prop := rest = [] ∨ ∃ cs, rest = '<' :: cs

/-! ## Sample inputs -/

/-- A browser whose decoded values are text already: conversions are the identity and
serialisation writes the pairs between braces without escaping. -/
def text_browser : Browser String where
  parseInt := fun s => s
  stringify := fun kvs =>
    "\x7b" ++ ",".intercalate (kvs.map (fun kv =>
      "\"" ++ kv.1 ++ "\":" ++
        (match kv.2 with
         | .text s => "\"" ++ s ++ "\""
         | .number n => n))) ++ "\x7d"
  valText := fun v => v
  toStr := fun v => v

/-- A page showing one record, with an empty message area and an older, empty result table. -/
def sample_page : Page :=
  { form :=
      { inventory_id := "7"
        inventory_name := "Widget"
        inventory_category := "Tools"
        inventory_quantity := "10"
        inventory_condition := "NEW"
        inventory_restock_level := "2" }
    flash := []
    search_results := [table_of []] }

/-- A failed response with a decoded body carrying a message. -/
def sample_not_found : FailedXHR :=
  { responseText := "\x7b\"message\": \"Inventory with id 7 was not found.\"\x7d"
    responseJSON := some { message := some "Inventory with id 7 was not found." } }

/-- A failed response whose decoded message holds markup. -/
def sample_markup_message : FailedXHR :=
  { responseText := "\x7b\"message\": \"<b>gone</b>\"\x7d"
    responseJSON := some { message := some "<b>gone</b>" } }

/-- A failed response whose body is not JSON, so that nothing was decoded. -/
def sample_undecodable : FailedXHR :=
  { responseText := "<html>502 Bad Gateway</html>", responseJSON := none }

/-- Two records of a search response. -/
def sample_records : List (Record String) :=
  [ { id := "3", inventory_name := "Bolt", category := "Hardware", quantity := "40",
      condition := "NEW", restock_level := "5" },
    { id := "9", inventory_name := "Nut", category := "Hardware", quantity := "12",
      condition := "USED", restock_level := "4" } ]

/-- A response of one record whose name closes its cell and its row and opens a second row. -/
def sample_injected : List (Record String) :=
  [ { id := "3", inventory_name := "</td></tr><tr id=\"row_1\"><td>x", category := "Hardware",
      quantity := "40", condition := "NEW", restock_level := "5" } ]

/-! ## Lemmas on joining strings -/

theorem intercalate_go_snoc (s : String) (ts : List String) (t acc : String) :
    String.intercalate.go acc s (ts ++ [t]) = String.intercalate.go acc s ts ++ s ++ t := by
  induction ts generalizing acc with
  | nil => simp [String.intercalate.go]
  | cons a as ih => simp [String.intercalate.go, ih]

theorem intercalate_snoc (s : String) (ts : List String) (t : String) :
    s.intercalate (ts ++ [t]) = if ts = [] then t else s.intercalate ts ++ s ++ t := by
  cases ts with
  | nil => simp [String.intercalate, String.intercalate.go]
  | cons a as => simp [String.intercalate, intercalate_go_snoc]

theorem length_pos_of_ne_empty {s : String} (h : s ≠ "") : 0 < s.length := by
  rcases s with ⟨l⟩
  cases l with
  | nil => exact absurd rfl h
  | cons c cs => simp [String.length]

theorem intercalate_go_length (s : String) (ts : List String) (acc : String) :
    acc.length ≤ (String.intercalate.go acc s ts).length := by
  induction ts generalizing acc with
  | nil => simp [String.intercalate.go]
  | cons a as ih =>
    simp only [String.intercalate.go]
    refine le_trans ?_ (ih _)
    simp [String.length_append]
    omega

theorem intercalate_length_pos (s : String) (ts : List String) (hne : ts ≠ [])
    (hts : ∀ t ∈ ts, t ≠ "") : 0 < (s.intercalate ts).length := by
  cases ts with
  | nil => exact absurd rfl hne
  | cons a as =>
    simp only [String.intercalate]
    exact lt_of_lt_of_le (length_pos_of_ne_empty (hts a (by simp))) (intercalate_go_length _ _ _)

theorem list_intercalate_cons {α : Type} (sep a : List α) (as : List (List α)) :
    sep.intercalate (a :: as) = a ++ (as.map (fun t => sep ++ t)).flatten := by
  induction as generalizing a with
  | nil => simp [List.intercalate]
  | cons b bs ih =>
    have := ih b
    simp only [List.intercalate, List.intersperse, List.flatten_cons, List.map_cons] at this ⊢
    rw [this]
    simp

theorem intercalate_go_data (s : String) (ts : List String) (acc : String) :
    (String.intercalate.go acc s ts).data
      = acc.data ++ (ts.map (fun t => s.data ++ t.data)).flatten := by
  induction ts generalizing acc with
  | nil => simp [String.intercalate.go]
  | cons a as ih => simp [String.intercalate.go, ih, String.data_append]

/-- Joining strings and then listing the characters is joining the character lists. -/
theorem intercalate_data (s : String) (ts : List String) :
    (s.intercalate ts).data = s.data.intercalate (ts.map String.data) := by
  cases ts with
  | nil => simp [String.intercalate, List.intercalate]
  | cons a as =>
    simp [String.intercalate, intercalate_go_data, list_intercalate_cons, List.map_map,
      Function.comp_def]

/-- A separator that ends the list or is followed by another separator leaves an empty piece
after the first piece of the split. -/
theorem nil_mem_tail_splitOn {α : Type} [DecidableEq α] (x : α) (a b : List α)
    (hb : b = [] ∨ ∃ c, b = x :: c) : [] ∈ ((a ++ x :: b).splitOn x).tail := by
  induction a with
  | nil =>
    rcases hb with rfl | ⟨c, rfl⟩
    · simp [List.splitOn, List.splitOnP_cons]
    · simp [List.splitOn, List.splitOnP_cons]
  | cons hd tl ih =>
    simp only [List.splitOn, List.cons_append, List.splitOnP_cons] at ih ⊢
    by_cases h : hd = x
    · simp only [h, beq_self_eq_true, if_true, List.tail_cons]
      exact List.mem_of_mem_tail ih
    · have : (hd == x) = false := by simpa using h
      simp only [this]
      cases hsp : List.splitOnP (fun y => y == x) (tl ++ x :: b) with
      | nil => exact absurd hsp (List.splitOnP_ne_nil _ _)
      | cons u us =>
        rw [hsp] at ih
        simpa [List.modifyHead] using ih

/-! ## Lemmas on the query string -/

theorem truthy_iff (s : String) : truthy s = true ↔ s ≠ "" := by
  simp [truthy]

/-- One guarded block of the handler extends the joined terms by the term of a populated
field and leaves them alone for an empty field. -/
theorem add_term (ts : List String) (hts : ∀ t ∈ ts, t ≠ "") (k v : String) :
    (if truthy v then
        if ("&".intercalate ts).length > 0 then "&".intercalate ts ++ ("&" ++ k ++ v)
        else "&".intercalate ts ++ (k ++ v)
      else "&".intercalate ts)
      = "&".intercalate (ts ++ if v ≠ "" then [k ++ v] else []) := by
  by_cases hv : v = ""
  · simp [hv, truthy]
  · have htr : truthy v = true := (truthy_iff v).2 hv
    simp only [htr, if_true, hv, ne_eq, not_false_eq_true, intercalate_snoc]
    by_cases hne : ts = []
    · subst hne
      simp [String.intercalate]
    · have := intercalate_length_pos "&" ts hne hts
      simp [hne, this, String.append_assoc]

theorem nonempty_terms_step (ts : List String) (hts : ∀ t ∈ ts, t ≠ "") (k v : String)
    (hk : k ≠ "") : ∀ t ∈ ts ++ (if v ≠ "" then [k ++ v] else []), t ≠ "" := by
  intro t ht
  rcases List.mem_append.1 ht with h | h
  · exact hts t h
  · by_cases hv : v = ""
    · simp [hv] at h
    · simp only [hv, ne_eq, not_false_eq_true, if_true, List.mem_singleton] at h
      subst h
      intro hcontra
      have := congrArg String.length hcontra
      have hk' := length_pos_of_ne_empty hk
      simp [String.length_append] at this
      omega

/-- The populated terms, written as five optional terms appended in emission order. -/
theorem populated_terms_eq (n c q d r : String) :
    populated_terms n c q d r =
      ((((([] ++ if n ≠ "" then ["name=" ++ n] else []) ++
        if c ≠ "" then ["category=" ++ c] else []) ++
        if q ≠ "" then ["quantity=" ++ q] else []) ++
        if d ≠ "" then ["condition=" ++ d] else []) ++
        if r ≠ "" then ["restock_level=" ++ r] else []) := by
  have e1 : "name" ++ "=" = "name=" := by decide
  have e2 : "category" ++ "=" = "category=" := by decide
  have e3 : "quantity" ++ "=" = "quantity=" := by decide
  have e4 : "condition" ++ "=" = "condition=" := by decide
  have e5 : "restock_level" ++ "=" = "restock_level=" := by decide
  unfold populated_terms search_fields
  by_cases hn : n = "" <;> by_cases hc : c = "" <;> by_cases hq : q = "" <;>
    by_cases hd : d = "" <;> by_cases hr : r = "" <;>
    simp [List.filter, hn, hc, hq, hd, hr, e1, e2, e3, e4, e5]

/-- The handler's string is the join of the populated terms. -/
theorem search_queryString_join (n c q d r : String) :
    search_queryString n c q d r = "&".intercalate (populated_terms n c q d r) := by
  have a2 : "&category=" = "&" ++ "category=" := by decide
  have a3 : "&quantity=" = "&" ++ "quantity=" := by decide
  have a4 : "&condition=" = "&" ++ "condition=" := by decide
  have a5 : "&restock_level=" = "&" ++ "restock_level=" := by decide
  have h0 : ∀ t ∈ ([] : List String), t ≠ "" := by simp
  have h1 := nonempty_terms_step [] h0 "name=" n (by decide)
  have h2 := nonempty_terms_step _ h1 "category=" c (by decide)
  have h3 := nonempty_terms_step _ h2 "quantity=" q (by decide)
  have h4 := nonempty_terms_step _ h3 "condition=" d (by decide)
  rw [populated_terms_eq, ← add_term _ h4, ← add_term _ h3, ← add_term _ h2, ← add_term _ h1]
  have hfirst : "&".intercalate ([] ++ if n ≠ "" then ["name=" ++ n] else [])
      = if truthy n then "" ++ ("name=" ++ n) else "" := by
    by_cases hn : n = ""
    · simp [hn, truthy, String.intercalate]
    · simp [hn, truthy, String.intercalate, String.intercalate.go]
  rw [hfirst]
  simp only [search_queryString, a2, a3, a4, a5]

/-- What a term of a populated field looks like. -/
theorem mem_populated_terms {n c q d r t : String} (ht : t ∈ populated_terms n c q d r) :
    ∃ k v, (k, v) ∈ search_fields n c q d r ∧ v ≠ "" ∧ t = k ++ "=" ++ v := by
  simp only [populated_terms, List.mem_map, List.mem_filter, decide_eq_true_eq] at ht
  obtain ⟨⟨k, v⟩, ⟨hmem, hv⟩, rfl⟩ := ht
  exact ⟨k, v, hmem, hv, rfl⟩

theorem populated_terms_ne_nil {n c q d r : String}
    (hpop : n ≠ "" ∨ c ≠ "" ∨ q ≠ "" ∨ d ≠ "" ∨ r ≠ "") :
    populated_terms n c q d r ≠ [] := by
  rw [populated_terms_eq]
  rcases hpop with h | h | h | h | h <;> simp [h]

theorem amp_not_mem_term {n c q d r t : String}
    (hn : '&' ∉ n.data) (hc : '&' ∉ c.data) (hq : '&' ∉ q.data) (hd : '&' ∉ d.data)
    (hr : '&' ∉ r.data) (ht : t ∈ populated_terms n c q d r) : '&' ∉ t.data ∧ t.data ≠ [] := by
  obtain ⟨k, v, hmem, _, rfl⟩ := mem_populated_terms ht
  simp only [search_fields, List.mem_cons, Prod.mk.injEq, List.mem_singleton,
    List.not_mem_nil, or_false] at hmem
  rcases hmem with ⟨rfl, rfl⟩ | ⟨rfl, rfl⟩ | ⟨rfl, rfl⟩ | ⟨rfl, rfl⟩ | ⟨rfl, rfl⟩ <;>
    simp [String.data_append, hn, hc, hq, hd, hr]

/-- Terms whose keys differ within the first two characters are different strings. -/
theorem term_ne_of_key (k1 k2 v w : String) (h1 : 2 ≤ k1.data.length)
    (h2 : 2 ≤ k2.data.length) (hne : k1.data.take 2 ≠ k2.data.take 2) :
    k1 ++ "=" ++ v ≠ k2 ++ "=" ++ w := by
  intro h
  apply hne
  have hd := congrArg (fun s => s.data.take 2) h
  simp only [String.data_append, List.append_assoc] at hd
  rwa [List.take_append_of_le_length h1, List.take_append_of_le_length h2] at hd

theorem term_mem_iff (n c q d r k v : String) (hkv : (k, v) ∈ search_fields n c q d r) :
    k ++ "=" ++ v ∈ populated_terms n c q d r ↔ v ≠ "" := by
  constructor
  · intro hmem
    obtain ⟨k2, v2, hmem2, hv2, heq⟩ := mem_populated_terms hmem
    simp only [search_fields, List.mem_cons, Prod.mk.injEq, List.mem_singleton,
      List.not_mem_nil, or_false] at hkv hmem2
    rcases hkv with ⟨rfl, rfl⟩ | ⟨rfl, rfl⟩ | ⟨rfl, rfl⟩ | ⟨rfl, rfl⟩ | ⟨rfl, rfl⟩ <;>
      rcases hmem2 with ⟨rfl, rfl⟩ | ⟨rfl, rfl⟩ | ⟨rfl, rfl⟩ | ⟨rfl, rfl⟩ | ⟨rfl, rfl⟩ <;>
      first
        | exact hv2
        | exact absurd heq (term_ne_of_key _ _ _ _ (by decide) (by decide) (by decide))
  · intro hv
    simp only [populated_terms, List.mem_map, List.mem_filter, decide_eq_true_eq]
    exact ⟨(k, v), ⟨hkv, hv⟩, rfl⟩

/-! ## Lemmas on the parser: it inverts serialisation on the subset -/

theorem lex_text_acc (s : List Char) (hs : ∀ c ∈ s, c ≠ '<') (acc rest : List Char) :
    lex (.text acc) (s ++ rest) = lex (.text (acc ++ s)) rest := by
  induction s generalizing acc with
  | nil => simp
  | cons c cs ih =>
    have hc : c ≠ '<' := hs c (by simp)
    simp only [List.cons_append, lex, hc, if_false, List.append_eq]
    rw [ih (fun d hd => hs d (by simp [hd]))]
    simp

theorem lex_tag_acc (body : List Char) (hb : ∀ c ∈ body, c ≠ '>') (acc rest : List Char) :
    lex (.tag acc) (body ++ '>' :: rest) =
      match lexTag (acc ++ body) with
      | some t => (lex (.text []) rest).map (fun ts => t :: ts)
      | none => none := by
  induction body generalizing acc with
  | nil => simp [lex]
  | cons c cs ih =>
    have hc : c ≠ '>' := hb c (by simp)
    simp only [List.cons_append, lex, hc, if_false, List.append_eq]
    rw [ih (fun d hd => hb d (by simp [hd]))]
    simp

theorem textChar_ne_lt {c : Char} (h : textChar c = true) : c ≠ '<' := by
  intro hc
  subst hc
  simp [textChar] at h

theorem lex_text (s : List Char) (hne : s ≠ []) (hs : s.all textChar = true)
    (rest : List Char) (hb : boundary rest) :
    lex (.text []) (s ++ rest)
      = (lex (.text []) rest).map (fun ts => Token.text (String.mk s) :: ts) := by
  have hlt : ∀ c ∈ s, c ≠ '<' := fun c hc => textChar_ne_lt (List.all_eq_true.1 hs c hc)
  rw [lex_text_acc s hlt]
  rcases hb with rfl | ⟨cs, rfl⟩
  · simp [lex, flushText, hne, hs]
  · simp [lex, flushText, hne, hs]

theorem lex_tag (body : List Char) (hb : ∀ c ∈ body, c ≠ '>') (rest : List Char) :
    lex (.text []) ('<' :: (body ++ '>' :: rest)) =
      match lexTag body with
      | some t => (lex (.text []) rest).map (fun ts => t :: ts)
      | none => none := by
  simp only [lex, if_true, flushText]
  rw [lex_tag_acc body hb]
  simp

theorem nameChar_ne_eq {c : Char} (h : nameChar c = true) : c ≠ '=' := by
  intro hc
  subst hc
  revert h
  decide

theorem lexAttrs_key (k : List Char) (hk : ∀ c ∈ k, c ≠ '=') (acc rest : List Char) :
    lexAttrs (.key acc) (k ++ '=' :: rest) =
      if validName (acc ++ k) then lexAttrs (.quote (acc ++ k)) rest else none := by
  induction k generalizing acc with
  | nil => simp [lexAttrs]
  | cons c cs ih =>
    have hc : c ≠ '=' := hk c (by simp)
    simp only [List.cons_append, lexAttrs, hc, if_false, List.append_eq]
    rw [ih (fun d hd => hk d (by simp [hd]))]
    simp

theorem lexAttrs_value (key v : List Char) (hv : ∀ c ∈ v, c ≠ '\x22') (acc rest : List Char) :
    lexAttrs (.value key acc) (v ++ '\x22' :: rest) =
      if (acc ++ v).all valueChar then
        (lexAttrs .gap rest).map (fun r => (String.mk key, String.mk (acc ++ v)) :: r)
      else none := by
  induction v generalizing acc with
  | nil => simp [lexAttrs]
  | cons c cs ih =>
    have hc : c ≠ '\x22' := hv c (by simp)
    simp only [List.cons_append, lexAttrs, hc, if_false, List.append_eq]
    rw [ih (fun d hd => hv d (by simp [hd]))]
    simp

theorem valueChar_ne_quote {c : Char} (h : valueChar c = true) : c ≠ '\x22' := by
  intro hc
  subst hc
  revert h
  decide

theorem validName_all {k : List Char} (h : validName k = true) : k.all nameChar = true := by
  cases k with
  | nil => simp [validName] at h
  | cons c cs =>
    simp only [validName, Bool.and_eq_true] at h
    exact h.2

theorem lexAttrs_render (attrs : List (String × String))
    (h : attrs.all (fun kv => validName kv.1.data && kv.2.data.all valueChar) = true) :
    lexAttrs .gap (renderAttrs attrs) = some attrs := by
  induction attrs with
  | nil => simp [renderAttrs, lexAttrs]
  | cons kv rest ih =>
    simp only [List.all_cons, Bool.and_eq_true] at h
    obtain ⟨⟨hk, hv⟩, hrest⟩ := h
    have hk1 : ∀ c ∈ kv.1.data, c ≠ '=' := fun c hc =>
      nameChar_ne_eq (List.all_eq_true.1 (validName_all hk) c hc)
    have hv1 : ∀ c ∈ kv.2.data, c ≠ '\x22' := fun c hc =>
      valueChar_ne_quote (List.all_eq_true.1 hv c hc)
    simp only [renderAttrs, lexAttrs, if_true, List.append_eq, List.append_assoc, List.cons_append]
    rw [lexAttrs_key _ hk1]
    simp only [List.nil_append, hk, if_true, lexAttrs]
    rw [lexAttrs_value _ _ hv1]
    simp [hv, ih hrest]

theorem takeWhile_dropWhile_append {p : Char → Bool} (l r : List Char)
    (hl : l.all p = true) (hr : r = [] ∨ ∃ c cs, r = c :: cs ∧ p c = false) :
    (l ++ r).takeWhile p = l ∧ (l ++ r).dropWhile p = r := by
  induction l with
  | nil =>
    rcases hr with rfl | ⟨c, cs, rfl, hc⟩
    · simp
    · simp [List.takeWhile, List.dropWhile, hc]
  | cons a as ih =>
    simp only [List.all_cons, Bool.and_eq_true] at hl
    have := ih hl.2
    simp [List.takeWhile, List.dropWhile, hl.1, this.1, this.2]

theorem renderAttrs_head (attrs : List (String × String)) :
    renderAttrs attrs = [] ∨ ∃ c cs, renderAttrs attrs = c :: cs ∧ nameChar c = false := by
  cases attrs with
  | nil => exact Or.inl rfl
  | cons kv rest => exact Or.inr ⟨' ', _, rfl, by decide⟩

theorem lexTag_close (name : List Char) (h : validName name = true) :
    lexTag ('/' :: name) = some (.close (String.mk name)) := by
  simp [lexTag, h]

theorem lexTag_start (name : List Char) (attrs : List (String × String))
    (hn : validName name = true) (ha : validAttrs attrs = true) :
    lexTag (name ++ renderAttrs attrs) = some (.start (String.mk name) attrs) := by
  simp only [validAttrs, Bool.and_eq_true] at ha
  obtain ⟨h1, h2⟩ := takeWhile_dropWhile_append name (renderAttrs attrs) (validName_all hn)
    (renderAttrs_head attrs)
  cases name with
  | nil => simp [validName] at hn
  | cons c cs =>
    have hc : c ≠ '/' := by
      intro hc
      subst hc
      simp [validName] at hn
    rw [List.cons_append] at h1 h2 ⊢
    unfold lexTag
    split
    · rename_i h
      cases h
      exact absurd rfl hc
    · simp only [h1, h2, hn, if_true, lexAttrs_render attrs ha.1, ha.2]

theorem nameChar_ne_gt {c : Char} (h : nameChar c = true) : c ≠ '>' := by
  intro hc
  subst hc
  revert h
  decide

theorem valueChar_ne_gt {c : Char} (h : valueChar c = true) : c ≠ '>' := by
  intro hc
  subst hc
  revert h
  decide

theorem renderAttrs_no_gt (attrs : List (String × String))
    (h : attrs.all (fun kv => validName kv.1.data && kv.2.data.all valueChar) = true) :
    ∀ c ∈ renderAttrs attrs, c ≠ '>' := by
  induction attrs with
  | nil => simp [renderAttrs]
  | cons kv rest ih =>
    simp only [List.all_cons, Bool.and_eq_true] at h
    obtain ⟨⟨hk, hv⟩, hrest⟩ := h
    intro c hc
    simp only [renderAttrs, List.mem_cons, List.mem_append] at hc
    rcases hc with ((rfl | hc) | rfl | rfl | hc) | rfl | hc
    · decide
    · exact nameChar_ne_gt (List.all_eq_true.1 (validName_all hk) c hc)
    · decide
    · decide
    · exact valueChar_ne_gt (List.all_eq_true.1 hv c hc)
    · decide
    · exact ih hrest c hc

theorem lex_start (tag : String) (attrs : List (String × String)) (rest : List Char)
    (hn : validName tag.data = true) (ha : validAttrs attrs = true) :
    lex (.text []) ('<' :: ((tag.data ++ renderAttrs attrs) ++ '>' :: rest))
      = (lex (.text []) rest).map (fun ts => Token.start tag attrs :: ts) := by
  have hgt : ∀ c ∈ tag.data ++ renderAttrs attrs, c ≠ '>' := by
    intro c hc
    rcases List.mem_append.1 hc with h | h
    · exact nameChar_ne_gt (List.all_eq_true.1 (validName_all hn) c h)
    · simp only [validAttrs, Bool.and_eq_true] at ha
      exact renderAttrs_no_gt attrs ha.1 c h
  rw [lex_tag _ hgt, lexTag_start _ _ hn ha]

theorem lex_close (tag : String) (rest : List Char) (hn : validName tag.data = true) :
    lex (.text []) ('<' :: (('/' :: tag.data) ++ '>' :: rest))
      = (lex (.text []) rest).map (fun ts => Token.close tag :: ts) := by
  have hgt : ∀ c ∈ '/' :: tag.data, c ≠ '>' := by
    intro c hc
    rcases List.mem_cons.1 hc with rfl | h
    · decide
    · exact nameChar_ne_gt (List.all_eq_true.1 (validName_all hn) c h)
  rw [lex_tag _ hgt, lexTag_close _ hn]

theorem boundary_nil : boundary [] := Or.inl rfl

theorem boundary_lt (cs : List Char) : boundary ('<' :: cs) := Or.inr ⟨cs, rfl⟩

/-- The serialisation of a valid list that does not start with a text node starts with a tag,
or is empty and gives way to what follows. -/
theorem boundary_renderList (parent : String) (ns : List Node) (rest : List Char)
    (hv : validList parent ns = true) (hrest : boundary rest)
    (hhead : ∀ n ns0, ns = n :: ns0 → n.isText = false) :
    boundary (renderList ns ++ rest) := by
  cases ns with
  | nil => simpa [renderList] using hrest
  | cons n ns0 =>
    have hn := hhead n ns0 rfl
    cases n with
    | text s => simp [Node.isText] at hn
    | elem tag attrs kids =>
      rw [renderList, render]
      exact Or.inr ⟨_, rfl⟩
    | unparsed m => simp [validList, validNode] at hv

mutual
theorem lex_render (parent : String) (n : Node) (rest : List Char)
    (hv : validNode parent n = true) (hb : n.isText = true → boundary rest) :
    lex (.text []) (render n ++ rest)
      = (lex (.text []) rest).map (fun ts => toks n ++ ts) := by
  cases n with
  | text s =>
    simp only [validNode, Bool.and_eq_true, Bool.not_eq_true', List.isEmpty_eq_false] at hv
    have hne : s.data ≠ [] := by
      intro h
      simp [h] at hv
    rw [render, lex_text s.data hne hv.2 rest (hb rfl)]
    simp [toks]
  | elem tag attrs kids =>
    simp only [validNode, Bool.and_eq_true, Bool.not_eq_true'] at hv
    obtain ⟨⟨⟨⟨_, hname⟩, hattrs⟩, hkids⟩, hadj⟩ := hv
    have hclose := lex_close tag rest hname
    have hk := lex_renderList tag kids ('<' :: (('/' :: tag.data) ++ '>' :: rest)) hkids hadj
      (boundary_lt _)
    have hstart := lex_start tag attrs
      (renderList kids ++ '<' :: (('/' :: tag.data) ++ '>' :: rest)) hname hattrs
    have hshape : render (.elem tag attrs kids) ++ rest
        = '<' :: ((tag.data ++ renderAttrs attrs) ++
            '>' :: (renderList kids ++ '<' :: (('/' :: tag.data) ++ '>' :: rest))) := by
      simp [render]
    rw [hshape, hstart, hk, hclose]
    cases lex (.text []) rest <;> simp [toks]
  | unparsed m => simp [validNode] at hv
theorem lex_renderList (parent : String) (ns : List Node) (rest : List Char)
    (hv : validList parent ns = true) (hadj : adjacentText ns = false) (hb : boundary rest) :
    lex (.text []) (renderList ns ++ rest)
      = (lex (.text []) rest).map (fun ts => toksList ns ++ ts) := by
  cases ns with
  | nil => simp [renderList, toksList]
  | cons n ns0 =>
    simp only [validList, Bool.and_eq_true] at hv
    have hadj0 : adjacentText ns0 = false := by
      cases ns0 with
      | nil => rfl
      | cons m ms => simp only [adjacentText, Bool.or_eq_false_iff] at hadj; exact hadj.2
    have hnext : n.isText = true → boundary (renderList ns0 ++ rest) := by
      intro hn
      refine boundary_renderList parent ns0 rest hv.2 hb ?_
      intro m ms hms
      subst hms
      simp only [adjacentText, Bool.or_eq_false_iff, Bool.and_eq_false_iff] at hadj
      rcases hadj.1 with h | h
      · rw [hn] at h; cases h
      · exact h
    have h1 := lex_render parent n (renderList ns0 ++ rest) hv.1 hnext
    have h2 := lex_renderList parent ns0 rest hv.2 hadj0 hb
    rw [renderList, List.append_assoc, h1, h2]
    cases lex (.text []) rest <;> simp [toksList]
end

mutual
theorem build_toks (n : Node) (cur : Frame) (outer : List Frame) (rest : List Token)
    (hv : validNode cur.tag n = true) :
    build (toks n ++ rest) cur outer = build rest (cur.push n) outer := by
  cases n with
  | text s =>
    simp only [validNode, Bool.and_eq_true] at hv
    simp [toks, build, hv.1.1]
  | elem tag attrs kids =>
    simp only [validNode, Bool.and_eq_true] at hv
    obtain ⟨⟨⟨⟨hallow, _⟩, _⟩, hkids⟩, _⟩ := hv
    have hk := build_toksList kids { tag := tag, attrs := attrs, kids := [] } (cur :: outer)
      (.close tag :: rest) hkids
    simp only [toks, List.cons_append, List.append_assoc, List.singleton_append, build, hallow,
      if_true, List.append_eq, List.nil_append]
    rw [hk]
    simp [build]
  | unparsed m => simp [validNode] at hv
theorem build_toksList (ns : List Node) (cur : Frame) (outer : List Frame) (rest : List Token)
    (hv : validList cur.tag ns = true) :
    build (toksList ns ++ rest) cur outer
      = build rest { cur with kids := cur.kids ++ ns } outer := by
  cases ns with
  | nil => simp [toksList]
  | cons n ns0 =>
    simp only [validList, Bool.and_eq_true] at hv
    have h1 := build_toks n cur outer (toksList ns0 ++ rest) hv.1
    have h2 := build_toksList ns0 (cur.push n) outer rest hv.2
    rw [toksList, List.append_assoc, h1, h2]
    simp [Frame.push]
end

/-- On the modelled subset parsing inverts serialisation. -/
theorem parseFragment_render (ns : List Node) (hv : validForest ns = true) :
    parseFragment (String.mk (renderList ns)) = some ns := by
  simp only [validForest, Bool.and_eq_true, Bool.not_eq_true'] at hv
  have h1 := lex_renderList "" ns [] hv.1 hv.2 boundary_nil
  have h2 := build_toksList ns { tag := "", attrs := [], kids := [] } [] [] hv.1
  simp only [List.append_nil] at h1 h2
  simp [parseFragment, h1, lex, flushText, h2, build]

/-! ## Lemmas on the result table -/

theorem renderList_text_nodes (s : String) : renderList (text_nodes s) = s.data := by
  by_cases h : s = ""
  · subst h
    simp [text_nodes, renderList]
  · simp [text_nodes, h, renderList, render]

/-- The template literal of a row is the described row written out. -/
theorem table_row_data {V : Type} (b : Browser V) (i : Nat) (r : Record V) :
    (table_row b i r).data = render (body_row b i r) := by
  simp only [table_row, body_row, render, renderList, renderAttrs, List.map_cons, List.map_nil,
    renderList_text_nodes, String.data_append, List.append_assoc, List.cons_append,
    List.nil_append, List.append_nil]

/-- The loop appends the rows of the remaining records, numbered from the start index. -/
theorem search_loop_data {V : Type} (b : Browser V) (l : List (Record V)) (i : Nat)
    (table : String) (first : Option (Record V)) :
    (search_loop b l i (table, first)).1.data
      = table.data ++ renderList ((l.enumFrom i).map (fun ir => body_row b ir.1 ir.2)) := by
  induction l generalizing i table first with
  | nil => simp [search_loop, renderList]
  | cons r rest ih =>
    simp only [search_loop, List.enumFrom_cons, List.map_cons, renderList]
    rw [ih, String.data_append, table_row_data, List.append_assoc]

set_option maxRecDepth 100000 in
/-- The table around the rows, written out, is the opening markup, the rows and the closing
tags. -/
theorem render_table_of (rows : List Node) :
    render (table_of rows)
      = table_head.data ++ (renderList rows ++ "</tbody></table>".data) := by
  simp only [table_of, header_row, header_cells, render, renderList, renderAttrs, List.map_cons,
    List.map_nil, List.append_assoc, List.cons_append, List.nil_append, List.append_nil]
  rfl

/-- Past index 0 the loop no longer assigns `firstInventory`. -/
theorem search_loop_first_later {V : Type} (b : Browser V) (l : List (Record V)) (i : Nat)
    (hi : 0 < i) (table : String) (first : Option (Record V)) :
    (search_loop b l i (table, first)).2 = first := by
  induction l generalizing i table first with
  | nil => simp [search_loop]
  | cons r rest ih =>
    have hne : (i == 0) = false := by simpa using Nat.pos_iff_ne_zero.1 hi
    simp only [search_loop, hne]
    exact ih (i + 1) (Nat.succ_pos i) _ _

theorem search_loop_first {V : Type} (b : Browser V) (r : Record V) (rest : List (Record V))
    (table : String) (first : Option (Record V)) :
    (search_loop b (r :: rest) 0 (table, first)).2 = some r := by
  simp only [search_loop]
  exact search_loop_first_later b rest 1 Nat.one_pos _ _

theorem digitChar_valueChar (d : Nat) (hd : d < 10) : valueChar (Nat.digitChar d) = true := by
  interval_cases d <;> decide

theorem toDigitsCore_valueChar (fuel n : Nat) (acc : List Char)
    (hacc : ∀ c ∈ acc, valueChar c = true) :
    ∀ c ∈ Nat.toDigitsCore 10 fuel n acc, valueChar c = true := by
  induction fuel generalizing n acc with
  | zero => simpa [Nat.toDigitsCore] using hacc
  | succ f ih =>
    have hcons : ∀ c ∈ Nat.digitChar (n % 10) :: acc, valueChar c = true := by
      intro c hc
      rcases List.mem_cons.1 hc with rfl | h
      · exact digitChar_valueChar _ (Nat.mod_lt _ (by decide))
      · exact hacc c h
    simp only [Nat.toDigitsCore]
    split
    · exact hcons
    · exact ih _ _ hcons

/-- The id `row_i` is a plain attribute value. -/
theorem row_id_valueChar (i : Nat) : ("row_" ++ toString i).data.all valueChar = true := by
  have hdig : ∀ c ∈ (toString i).data, valueChar c = true := by
    show ∀ c ∈ (Nat.repr i).data, valueChar c = true
    simpa [Nat.repr, Nat.toDigits, List.asString] using
      toDigitsCore_valueChar (i + 1) i [] (by simp)
  have hrow : "row_".data.all valueChar = true := by decide
  rw [String.data_append, List.all_append, hrow, Bool.true_and]
  exact List.all_eq_true.2 hdig

theorem valid_cell (s : String) (hs : plain s = true) :
    validNode "tr" (.elem "td" [] (text_nodes s)) = true := by
  have h1 : allowedChild "tr" "td" = true := by decide
  have h2 : validName "td".data = true := by decide
  have h3 : validAttrs [] = true := by decide
  have h4 : textAllowed "td" = true := by decide
  by_cases h : s = ""
  · subst h
    simp [validNode, validList, text_nodes, adjacentText, h1, h2, h3]
  · have hne : s.data ≠ [] := fun hd => h (String.ext hd)
    simp only [plain] at hs
    simp [validNode, validList, text_nodes, adjacentText, h, h1, h2, h3, h4, hne, hs]

theorem valid_row {V : Type} (b : Browser V) (i : Nat) (r : Record V)
    (hr : plain_record b r = true) : validNode "tbody" (body_row b i r) = true := by
  have h1 : allowedChild "tbody" "tr" = true := by decide
  have h2 : validName "tr".data = true := by decide
  have h3 : validName "id".data = true := by decide
  have hattrs : validAttrs [("id", "row_" ++ toString i)] = true := by
    simp only [validAttrs, List.all_cons, List.all_nil, Bool.and_true, Bool.and_eq_true]
    exact ⟨⟨h3, row_id_valueChar i⟩, by simp [distinctKeys]⟩
  simp only [plain_record, List.all_cons, List.all_nil, Bool.and_true, Bool.and_eq_true] at hr
  obtain ⟨p1, p2, p3, p4, p5, p6⟩ := hr
  rw [body_row, validNode]
  simp only [Bool.and_eq_true, Bool.not_eq_true']
  refine ⟨⟨⟨⟨h1, h2⟩, hattrs⟩, ?_⟩, ?_⟩
  · simp only [List.map_cons, List.map_nil, validList, Bool.and_eq_true]
    exact ⟨valid_cell _ p1, valid_cell _ p2, valid_cell _ p3, valid_cell _ p4, valid_cell _ p5,
      valid_cell _ p6, trivial⟩
  · rfl

theorem adjacentText_elems (ns : List Node) (h : ∀ n ∈ ns, n.isText = false) :
    adjacentText ns = false := by
  induction ns with
  | nil => rfl
  | cons a as ih =>
    cases as with
    | nil => rfl
    | cons c cs =>
      simp only [adjacentText, Bool.or_eq_false_iff, Bool.and_eq_false_iff]
      exact ⟨Or.inl (h a (by simp)), ih (fun n hn => h n (by simp [hn]))⟩

theorem valid_rows {V : Type} (b : Browser V) (l : List (Record V)) (i : Nat)
    (hl : ∀ r ∈ l, plain_record b r = true) :
    validList "tbody" ((l.enumFrom i).map (fun ir => body_row b ir.1 ir.2)) = true := by
  induction l generalizing i with
  | nil => simp [validList]
  | cons r rest ih =>
    simp only [List.enumFrom_cons, List.map_cons, validList, Bool.and_eq_true]
    exact ⟨valid_row b i r (hl r (by simp)), ih (i + 1) (fun x hx => hl x (by simp [hx]))⟩

theorem valid_table_of (rows : List Node) (hrows : validList "tbody" rows = true)
    (hel : ∀ n ∈ rows, n.isText = false) : validForest [table_of rows] = true := by
  have hhead : validNode "table" (.elem "thead" [] [header_row]) = true := by decide
  have h1 : allowedChild "" "table" = true := by decide
  have h2 : validName "table".data = true := by decide
  have h3 : validAttrs [("class", "table table-striped"), ("cellpadding", "10")] = true := by
    decide
  have h4 : allowedChild "table" "tbody" = true := by decide
  have h5 : validName "tbody".data = true := by decide
  have h6 : validAttrs [] = true := by decide
  have hbody : validNode "table" (.elem "tbody" [] rows) = true := by
    rw [validNode]
    simp only [Bool.and_eq_true, Bool.not_eq_true']
    exact ⟨⟨⟨⟨h4, h5⟩, h6⟩, hrows⟩, adjacentText_elems rows hel⟩
  have htable : validNode "" (table_of rows) = true := by
    rw [table_of, validNode]
    simp only [Bool.and_eq_true, Bool.not_eq_true']
    refine ⟨⟨⟨⟨h1, h2⟩, h3⟩, ?_⟩, rfl⟩
    simp only [validList, Bool.and_eq_true]
    exact ⟨hhead, hbody, trivial⟩
  simp only [validForest, validList, Bool.and_eq_true, Bool.not_eq_true']
  exact ⟨⟨htable, trivial⟩, rfl⟩

theorem body_rows_elems {V : Type} (b : Browser V) (res : List (Record V)) :
    ∀ n ∈ body_rows b res, n.isText = false := by
  intro n hn
  simp only [body_rows, List.mem_map] at hn
  obtain ⟨ir, _, rfl⟩ := hn
  rfl

/-- The markup of a search response with plain values is the result table written out. -/
theorem search_markup_data {V : Type} (b : Browser V) (res : List (Record V)) :
    ((search_loop b res 0 (table_head, none)).1 ++ "</tbody></table>").data
      = renderList [result_table b res] := by
  rw [String.data_append, search_loop_data]
  simp only [renderList, result_table, render_table_of, body_rows, List.enum, List.append_nil,
    List.append_assoc]

/-- Appending markup that is a fragment of the subset written out adds the nodes of the
fragment. -/
theorem jq_append_render (content : List Node) (s : String) (n : Node) (ns : List Node)
    (hdata : s.data = renderList (n :: ns)) (hel : n.isText = false)
    (hvalid : validForest (n :: ns) = true) :
    jq_append content (some s) = content ++ (n :: ns) := by
  have hparse : parseFragment s = some (n :: ns) := by
    have h := parseFragment_render (n :: ns) hvalid
    rw [← hdata] at h
    exact h
  cases n with
  | text t => simp [Node.isText] at hel
  | unparsed m => simp [validForest, validList, validNode] at hvalid
  | elem tag attrs kids =>
    have hlt : ∃ cs, s.data = '<' :: cs := ⟨_, by rw [hdata, renderList, render]; rfl⟩
    obtain ⟨cs, hcs⟩ := hlt
    have hne : s ≠ "" := by
      intro h
      rw [h] at hcs
      cases hcs
    have hr : rhtml s.data = true := by
      rw [hcs]
      simp [rhtml]
    simp [jq_append, hne, hr, hparse]

/-- The results container after a search whose values are plain. -/
theorem search_done_results {V : Type} (b : Browser V) (res : List (Record V)) (p : Page)
    (hplain : ∀ r ∈ res, plain_record b r = true) :
    (search_done b res p).page.search_results = [result_table b res] := by
  have hdata := search_markup_data b res
  have hvalid : validForest [result_table b res] = true :=
    valid_table_of _ (valid_rows b res 0 hplain) (body_rows_elems b res)
  have happ := jq_append_render [] _ _ [] hdata rfl hvalid
  unfold search_done
  generalize search_loop b res 0 (table_head, none) = st at happ
  obtain ⟨t, f⟩ := st
  simp only at happ
  cases f <;>
    simp [update_form_data, flash_message, flash_append, flash_empty, happ]

theorem body_rows_getElem {V : Type} (b : Browser V) (res : List (Record V)) (i : Nat)
    (h : i < res.length) :
    (body_rows b res)[i]? = some (body_row b i (res.get ⟨i, h⟩)) := by
  simp [body_rows, List.enum, List.getElem?_map, List.getElem?_enumFrom, h]

theorem flash_message_text (s : String) (p : Page) (hne : s ≠ "") (hr : rhtml s.data = false) :
    (flash_message (some s) p).flash = [.text s] := by
  simp [flash_message, flash_append, flash_empty, jq_append, hne, hr]

theorem flash_message_form (m : Option String) (p : Page) :
    (flash_message m p).form = p.form ∧
    (flash_message m p).search_results = p.search_results := by
  simp [flash_message, flash_append, flash_empty]

/-! ## The claims -/

/-- C1 (the code departs from it): the create handler hands exactly one request to the transport,
with method POST and a body serialised from an object with exactly the keys inventory_name,
category, quantity, condition, restock_level taken from the form, but its url is the literal text
of the double-quoted string, which is not the value of `root`; the update handler next to it
does build its url from `root`. -/
theorem create_click_request {V : Type} (b : Browser V) (p : Page) :
    (create_click b p).2 =
      [{ type := "POST", url := "$\x7broot\x7d", contentType := "application/json",
         data := b.stringify
           [ ("inventory_name", .text p.form.inventory_name),
             ("category", .text p.form.inventory_category),
             ("quantity", .number (b.parseInt p.form.inventory_quantity)),
             ("condition", .text p.form.inventory_condition),
             ("restock_level", .number (b.parseInt p.form.inventory_restock_level)) ] }] ∧
    (form_data b p.form).map Prod.fst =
      ["inventory_name", "category", "quantity", "condition", "restock_level"] ∧
    (create_click b p).2.map (fun req => decide (req.url = root)) = [false] ∧
    (update_click b p).2.map (fun req => req.url) = [root ++ "/" ++ p.form.inventory_id] := by
  have hne : decide ("$\x7broot\x7d" = root) = false := by decide
  exact ⟨rfl, rfl, by simp [create_click, hne], rfl⟩

/-- C2: for every assignment of the five search fields the query string of the search handler is
the `&`-join of the terms key=value of the fields whose value is not empty, in the order name,
category, quantity, condition, restock_level, with the value appended raw; when all five are
empty it is the empty string. -/
theorem search_queryString_spec (name category quantity condition restock_level : String) :
    search_queryString name category quantity condition restock_level
      = "&".intercalate
          (([("name", name), ("category", category), ("quantity", quantity),
             ("condition", condition), ("restock_level", restock_level)].filter
              (fun kv => kv.2 ≠ "")).map (fun kv => kv.1 ++ "=" ++ kv.2)) ∧
    search_queryString "" "" "" "" "" = "" :=
  ⟨search_queryString_join name category quantity condition restock_level, by decide⟩

/-- C3 (amended): when at least one of the five search fields is populated and no value contains
the character `&`, the query string has no leading `&`, no trailing `&`, no doubled `&&`, and
splitting it on `&` yields exactly the terms of the populated fields in the fixed order, as many
pieces as populated fields. -/
theorem search_queryString_split (n c q d r : String)
    (hn : '&' ∉ n.data) (hc : '&' ∉ c.data) (hq : '&' ∉ q.data) (hd : '&' ∉ d.data)
    (hr : '&' ∉ r.data) (hpop : n ≠ "" ∨ c ≠ "" ∨ q ≠ "" ∨ d ≠ "" ∨ r ≠ "") :
    ¬ ['&'] <+: (search_queryString n c q d r).data ∧
    ¬ ['&'] <:+ (search_queryString n c q d r).data ∧
    ¬ ['&', '&'] <:+: (search_queryString n c q d r).data ∧
    (search_queryString n c q d r).data.splitOn '&'
      = (populated_terms n c q d r).map String.data ∧
    ((search_queryString n c q d r).data.splitOn '&').length
      = ((search_fields n c q d r).filter (fun kv => kv.2 ≠ "")).length := by
  have hsplit : (search_queryString n c q d r).data.splitOn '&'
      = (populated_terms n c q d r).map String.data := by
    rw [search_queryString_join, intercalate_data]
    have hamp : "&".data = ['&'] := rfl
    rw [hamp]
    refine List.splitOn_intercalate _ '&' ?_ ?_
    · intro l hl
      obtain ⟨t, ht, rfl⟩ := List.mem_map.1 hl
      exact (amp_not_mem_term hn hc hq hd hr ht).1
    · simpa using populated_terms_ne_nil hpop
  have hnil : [] ∉ (search_queryString n c q d r).data.splitOn '&' := by
    rw [hsplit]
    intro h
    obtain ⟨t, ht, he⟩ := List.mem_map.1 h
    exact (amp_not_mem_term hn hc hq hd hr ht).2 he
  refine ⟨?_, ?_, ?_, hsplit, ?_⟩
  · rintro ⟨t, ht⟩
    apply hnil
    rw [← ht]
    simp [List.splitOn, List.splitOnP_cons]
  · rintro ⟨t, ht⟩
    apply hnil
    rw [← ht]
    exact List.mem_of_mem_tail (nil_mem_tail_splitOn '&' t [] (Or.inl rfl))
  · rintro ⟨s, t, ht⟩
    apply hnil
    rw [← ht]
    have := nil_mem_tail_splitOn '&' s ('&' :: t) (Or.inr ⟨t, rfl⟩)
    simpa using List.mem_of_mem_tail this
  · rw [hsplit]
    simp [populated_terms]

/-- C3, at name "bolt", quantity "7", restock level "2" and the other two fields empty. -/
theorem search_queryString_split_witness :
    ¬ ['&'] <+: (search_queryString "bolt" "" "7" "" "2").data ∧
    ¬ ['&'] <:+ (search_queryString "bolt" "" "7" "" "2").data ∧
    ¬ ['&', '&'] <:+: (search_queryString "bolt" "" "7" "" "2").data ∧
    (search_queryString "bolt" "" "7" "" "2").data.splitOn '&'
      = (populated_terms "bolt" "" "7" "" "2").map String.data ∧
    ((search_queryString "bolt" "" "7" "" "2").data.splitOn '&').length
      = ((search_fields "bolt" "" "7" "" "2").filter (fun kv => kv.2 ≠ "")).length :=
  search_queryString_split "bolt" "" "7" "" "2" (by decide) (by decide) (by decide) (by decide)
    (by decide) (Or.inl (by decide))

/-- C3 as stated fails: with the name field holding the one character `&` and the other fields
empty, one field is populated with a non-empty string, yet the query string `name=&` ends in
`&` and splits into two pieces. -/
theorem search_queryString_split_counterexample :
    "&" ≠ "" ∧
    search_queryString "&" "" "" "" "" = "name=&" ∧
    ['&'] <:+ (search_queryString "&" "" "" "" "").data ∧
    ((search_queryString "&" "" "" "" "").data.splitOn '&').length = 2 ∧
    ((search_fields "&" "" "" "" "").filter (fun kv => kv.2 ≠ "")).length = 1 := by
  decide

/-- C4: after the success handler of search, if the response has a first record the six form
fields hold that record's id, inventory_name, category, quantity, condition and restock_level
(as the value setter writes them); if the response is empty the six form fields are as before;
in both cases the handler returns normally and the notifier holds the text "Success" and
nothing else. -/
theorem search_done_form {V : Type} (b : Browser V) (r : Record V) (rest res : List (Record V))
    (p : Page) :
    (search_done b (r :: rest) p).page.form =
      { inventory_id := b.valText r.id
        inventory_name := b.valText r.inventory_name
        inventory_category := b.valText r.category
        inventory_quantity := b.valText r.quantity
        inventory_condition := b.valText r.condition
        inventory_restock_level := b.valText r.restock_level } ∧
    (search_done b ([] : List (Record V)) p).page.form = p.form ∧
    (search_done b res p).page.flash = [.text "Success"] ∧
    (search_done b res p).raised = none := by
  refine ⟨?_, ?_, ?_, ?_⟩
  · have h := search_loop_first b r rest table_head none
    unfold search_done
    generalize search_loop b (r :: rest) 0 (table_head, none) = st at h
    obtain ⟨t, f⟩ := st
    simp only at h
    subst h
    simp [update_form_data, (flash_message_form _ _).1]
  · simp [search_done, search_loop, (flash_message_form _ _).1]
  · unfold search_done
    generalize search_loop b res 0 (table_head, none) = st
    obtain ⟨t, f⟩ := st
    cases f <;> exact flash_message_text "Success" _ (by decide) (by decide)
  · unfold search_done
    generalize search_loop b res 0 (table_head, none) = st
    obtain ⟨t, f⟩ := st
    cases f <;> simp

/-- C5: the delete click handler leaves the form as it is; the success handler keeps the
identifier, empties the five data fields and shows "Inventory has been Deleted!"; the failure
handler keeps the identifier and shows "Server error!" for every failed response, whatever its
text and whether or not a payload was decoded; neither handler raises. -/
theorem delete_outcome {R : Type} (res : R) (xhr : FailedXHR) (p : Page) :
    (delete_click p).1.form = p.form ∧
    (delete_done res p).page.form.inventory_id = p.form.inventory_id ∧
    (delete_done res p).page.form.inventory_name = "" ∧
    (delete_done res p).page.form.inventory_category = "" ∧
    (delete_done res p).page.form.inventory_quantity = "" ∧
    (delete_done res p).page.form.inventory_condition = "" ∧
    (delete_done res p).page.form.inventory_restock_level = "" ∧
    (delete_done res p).page.flash = [.text "Inventory has been Deleted!"] ∧
    (delete_done res p).raised = none ∧
    (delete_fail xhr p).page.form.inventory_id = p.form.inventory_id ∧
    (delete_fail xhr p).page.flash = [.text "Server error!"] ∧
    (delete_fail xhr p).raised = none := by
  have h1 : (delete_done res p).page.flash = [.text "Inventory has been Deleted!"] :=
    flash_message_text "Inventory has been Deleted!" _ (by decide) (by decide)
  have h2 : (delete_fail xhr p).page.flash = [.text "Server error!"] :=
    flash_message_text "Server error!" _ (by decide) (by decide)
  refine ⟨?_, ?_, ?_, ?_, ?_, ?_, ?_, h1, rfl, ?_, h2, rfl⟩ <;>
    simp [delete_click, delete_done, delete_fail, clear_form_data, flash_empty,
      (flash_message_form _ _).1]

/-- C6 (amended): a failed delete does not clear anything: all six form fields, the identifier
among them, are after the failure handler what they were before it. -/
theorem delete_fail_form (xhr : FailedXHR) (p : Page) :
    (delete_fail xhr p).page.form = p.form := by
  simp [delete_fail, (flash_message_form _ _).1]

/-- C6 as stated fails: on the page that shows the record "Widget", after a failed delete the
five data fields are not all empty; the name field still reads "Widget". -/
theorem delete_fail_form_counterexample :
    ¬ ((delete_fail sample_undecodable sample_page).page.form.inventory_name = "" ∧
       (delete_fail sample_undecodable sample_page).page.form.inventory_category = "" ∧
       (delete_fail sample_undecodable sample_page).page.form.inventory_quantity = "" ∧
       (delete_fail sample_undecodable sample_page).page.form.inventory_condition = "" ∧
       (delete_fail sample_undecodable sample_page).page.form.inventory_restock_level = "") ∧
    (delete_fail sample_undecodable sample_page).page.form.inventory_name = "Widget" := by
  decide

/-- C7 (amended): when a retrieve or a restock fails and the decoded payload carries a message
`m` that holds no `<` and no character reference (the test `rhtml` of jQuery fails on it), the
failure handler returns normally with the five data fields empty, the identifier unchanged and
the notifier showing exactly `m`: its only content is `m` as text. -/
theorem retrieve_restock_fail_message (xhr : FailedXHR) (p : Page) (m : String)
    (h : xhr.responseJSON = some { message := some m }) (hm : rhtml m.data = false) :
    (retrieve_fail xhr p).page.form =
        { inventory_id := p.form.inventory_id, inventory_name := "", inventory_category := "",
          inventory_quantity := "", inventory_condition := "", inventory_restock_level := "" } ∧
    (retrieve_fail xhr p).page.flash = text_nodes m ∧
    (retrieve_fail xhr p).raised = none ∧
    (restock_fail xhr p).page.form =
        { inventory_id := p.form.inventory_id, inventory_name := "", inventory_category := "",
          inventory_quantity := "", inventory_condition := "", inventory_restock_level := "" } ∧
    (restock_fail xhr p).page.flash = text_nodes m ∧
    (restock_fail xhr p).raised = none := by
  by_cases hne : m = ""
  · simp [retrieve_fail, restock_fail, flash_response_message, responseMessage, h,
      clear_form_data, flash_message, flash_append, flash_empty, jq_append, text_nodes, hne]
  · simp [retrieve_fail, restock_fail, flash_response_message, responseMessage, h,
      clear_form_data, flash_message, flash_append, flash_empty, jq_append, text_nodes, hne, hm]

/-- C7 (amended), at the page showing "Widget" and a not-found response. -/
theorem retrieve_restock_fail_message_witness :
    (retrieve_fail sample_not_found sample_page).page.form =
        { inventory_id := "7", inventory_name := "", inventory_category := "",
          inventory_quantity := "", inventory_condition := "", inventory_restock_level := "" } ∧
    (retrieve_fail sample_not_found sample_page).page.flash
      = text_nodes "Inventory with id 7 was not found." ∧
    (retrieve_fail sample_not_found sample_page).raised = none ∧
    (restock_fail sample_not_found sample_page).page.form =
        { inventory_id := "7", inventory_name := "", inventory_category := "",
          inventory_quantity := "", inventory_condition := "", inventory_restock_level := "" } ∧
    (restock_fail sample_not_found sample_page).page.flash
      = text_nodes "Inventory with id 7 was not found." ∧
    (restock_fail sample_not_found sample_page).raised = none :=
  retrieve_restock_fail_message sample_not_found sample_page
    "Inventory with id 7 was not found." rfl (by decide)

/-- C7 as stated fails: when the decoded message is `<b>gone</b>`, the failure handlers of
retrieve and restock leave in the notifier an element `b` around the text "gone", so that the
notifier shows "gone" in bold and not the message. -/
theorem retrieve_restock_fail_message_counterexample :
    sample_markup_message.responseJSON = some { message := some "<b>gone</b>" } ∧
    (retrieve_fail sample_markup_message sample_page).page.flash
      = [.elem "b" [] [.text "gone"]] ∧
    (restock_fail sample_markup_message sample_page).page.flash
      = [.elem "b" [] [.text "gone"]] ∧
    (retrieve_fail sample_markup_message sample_page).page.flash ≠ text_nodes "<b>gone</b>" ∧
    (restock_fail sample_markup_message sample_page).page.flash ≠ text_nodes "<b>gone</b>" := by
  decide

/-- C8 (amended): when create, update, retrieve, restock or search fails and no payload was
decoded, the failure handler raises a type error while reading the message and writes nothing to
the notifier; create, update and search stop on the page as it was, retrieve and restock stop
after clearing the five data fields. -/
theorem fail_without_payload (xhr : FailedXHR) (p : Page) (h : xhr.responseJSON = none) :
    create_fail xhr p = { page := p, raised := some .typeError } ∧
    update_fail xhr p = { page := p, raised := some .typeError } ∧
    search_fail xhr p = { page := p, raised := some .typeError } ∧
    retrieve_fail xhr p = { page := clear_form_data p, raised := some .typeError } ∧
    restock_fail xhr p = { page := clear_form_data p, raised := some .typeError } ∧
    (retrieve_fail xhr p).page.flash = p.flash ∧
    (restock_fail xhr p).page.flash = p.flash := by
  simp [create_fail, update_fail, search_fail, retrieve_fail, restock_fail,
    flash_response_message, responseMessage, h, clear_form_data]

/-- C8 (amended), at the page showing "Widget" and a response whose body is not JSON. -/
theorem fail_without_payload_witness :
    create_fail sample_undecodable sample_page
      = { page := sample_page, raised := some .typeError } ∧
    update_fail sample_undecodable sample_page
      = { page := sample_page, raised := some .typeError } ∧
    search_fail sample_undecodable sample_page
      = { page := sample_page, raised := some .typeError } ∧
    retrieve_fail sample_undecodable sample_page
      = { page := clear_form_data sample_page, raised := some .typeError } ∧
    restock_fail sample_undecodable sample_page
      = { page := clear_form_data sample_page, raised := some .typeError } ∧
    (retrieve_fail sample_undecodable sample_page).page.flash = sample_page.flash ∧
    (restock_fail sample_undecodable sample_page).page.flash = sample_page.flash :=
  fail_without_payload sample_undecodable sample_page rfl

/-- C8 as stated fails: for a failed response whose body is not JSON, none of the five failure
handlers completes without raising, and the notifier is left empty instead of showing a
message. -/
theorem fail_without_payload_counterexample :
    sample_undecodable.responseJSON = none ∧
    (create_fail sample_undecodable sample_page).raised ≠ none ∧
    (update_fail sample_undecodable sample_page).raised ≠ none ∧
    (retrieve_fail sample_undecodable sample_page).raised ≠ none ∧
    (restock_fail sample_undecodable sample_page).raised ≠ none ∧
    (search_fail sample_undecodable sample_page).raised ≠ none ∧
    (create_fail sample_undecodable sample_page).page.flash = [] := by
  decide

/-- C9 (amended): for every assignment of the five search fields the query string is the join of
the populated terms, and the term key=value of a field is among them exactly when the value is
not the empty string: an empty field contributes no term, a value made of whitespace only is not
empty and contributes its term. -/
theorem search_term_iff_nonempty (n c q d r k v : String)
    (hkv : (k, v) ∈ search_fields n c q d r) :
    search_queryString n c q d r = "&".intercalate (populated_terms n c q d r) ∧
    (k ++ "=" ++ v ∈ populated_terms n c q d r ↔ v ≠ "") :=
  ⟨search_queryString_join n c q d r, term_mem_iff n c q d r k v hkv⟩

/-- C9 (amended), at a name field holding one space and the other fields empty. -/
theorem search_term_iff_nonempty_witness :
    search_queryString " " "" "" "" "" = "&".intercalate (populated_terms " " "" "" "" "") ∧
    ("name" ++ "=" ++ " " ∈ populated_terms " " "" "" "" "" ↔ " " ≠ "") :=
  search_term_iff_nonempty " " "" "" "" "" "name" " " (by decide)

/-- C9 as stated fails: a name field holding one space is blank, yet the query string is
`name= ` and not the join of the terms of the non-blank fields, which is empty. -/
theorem search_blank_counterexample :
    blank " " = true ∧
    search_queryString " " "" "" "" "" = "name= " ∧
    "&".intercalate (nonblank_terms " " "" "" "" "") = "" ∧
    search_queryString " " "" "" "" "" ≠ "&".intercalate (nonblank_terms " " "" "" "" "") := by
  decide

/-- C10 (amended): after the success handler of search on a response of n records whose six
values, as written into the markup, hold none of the characters `<`, `&`, carriage return and
null, the results container holds exactly the new table, whatever it held before: a table
element whose head is one row of the six fixed header cells and whose body has one row per
record, in response order. The row at index i has id `row_i` and six cells showing the i-th
record's id, inventory_name, category, quantity, condition and restock_level; for an empty
response the body is empty. -/
theorem search_done_table {V : Type} (b : Browser V) (res : List (Record V)) (p : Page)
    (hplain : ∀ r ∈ res, plain_record b r = true) (i : Nat) (h : i < res.length) :
    (search_done b res p).page.search_results =
      [.elem "table" [("class", "table table-striped"), ("cellpadding", "10")]
        [.elem "thead" []
          [.elem "tr" []
            (header_cells.map (fun c => .elem "th" [("class", "col-md-2")] [.text c]))],
         .elem "tbody" [] (body_rows b res)]] ∧
    header_cells.length = 6 ∧
    (body_rows b res).length = res.length ∧
    (body_rows b res)[i]? =
      some (.elem "tr" [("id", "row_" ++ toString i)]
        ([(res.get ⟨i, h⟩).id, (res.get ⟨i, h⟩).inventory_name, (res.get ⟨i, h⟩).category,
          (res.get ⟨i, h⟩).quantity, (res.get ⟨i, h⟩).condition,
          (res.get ⟨i, h⟩).restock_level].map
            (fun v => .elem "td" [] (text_nodes (b.toStr v))))) ∧
    (search_done b ([] : List (Record V)) p).page.search_results =
      [.elem "table" [("class", "table table-striped"), ("cellpadding", "10")]
        [.elem "thead" []
          [.elem "tr" []
            (header_cells.map (fun c => .elem "th" [("class", "col-md-2")] [.text c]))],
         .elem "tbody" [] []]] := by
  refine ⟨search_done_results b res p hplain, rfl, ?_, body_rows_getElem b res i h,
    search_done_results b [] p (by simp)⟩
  simp [body_rows, List.enum]

/-- C10 (amended), at a response of two records, for the row at index 1. -/
theorem search_done_table_witness :
    (search_done text_browser sample_records sample_page).page.search_results =
      [.elem "table" [("class", "table table-striped"), ("cellpadding", "10")]
        [.elem "thead" []
          [.elem "tr" []
            (header_cells.map (fun c => .elem "th" [("class", "col-md-2")] [.text c]))],
         .elem "tbody" [] (body_rows text_browser sample_records)]] ∧
    header_cells.length = 6 ∧
    (body_rows text_browser sample_records).length = sample_records.length ∧
    (body_rows text_browser sample_records)[1]? =
      some (.elem "tr" [("id", "row_" ++ toString 1)]
        ([(sample_records.get ⟨1, by decide⟩).id,
          (sample_records.get ⟨1, by decide⟩).inventory_name,
          (sample_records.get ⟨1, by decide⟩).category,
          (sample_records.get ⟨1, by decide⟩).quantity,
          (sample_records.get ⟨1, by decide⟩).condition,
          (sample_records.get ⟨1, by decide⟩).restock_level].map
            (fun v => .elem "td" [] (text_nodes (text_browser.toStr v))))) ∧
    (search_done text_browser ([] : List (Record String)) sample_page).page.search_results =
      [.elem "table" [("class", "table table-striped"), ("cellpadding", "10")]
        [.elem "thead" []
          [.elem "tr" []
            (header_cells.map (fun c => .elem "th" [("class", "col-md-2")] [.text c]))],
         .elem "tbody" [] []]] :=
  search_done_table text_browser sample_records sample_page (by decide) 1 (by decide)

set_option maxRecDepth 200000 in
/-- C10 as stated fails: for a response of one record whose name is
`</td></tr><tr id="row_1"><td>x`, the table in the results container has two body rows, the
first with two cells and the second with five, and not one row of six cells. -/
theorem search_done_table_counterexample :
    sample_injected.length = 1 ∧
    (search_done text_browser sample_injected sample_page).page.search_results =
      [.elem "table" [("class", "table table-striped"), ("cellpadding", "10")]
        [.elem "thead" []
          [.elem "tr" []
            (header_cells.map (fun c => .elem "th" [("class", "col-md-2")] [.text c]))],
         .elem "tbody" []
          [ .elem "tr" [("id", "row_0")] [.elem "td" [] [.text "3"], .elem "td" [] []],
            .elem "tr" [("id", "row_1")]
              [ .elem "td" [] [.text "x"], .elem "td" [] [.text "Hardware"],
                .elem "td" [] [.text "40"], .elem "td" [] [.text "NEW"],
                .elem "td" [] [.text "5"] ] ]]] ∧
    (search_done text_browser sample_injected sample_page).page.search_results ≠
      [.elem "table" [("class", "table table-striped"), ("cellpadding", "10")]
        [.elem "thead" []
          [.elem "tr" []
            (header_cells.map (fun c => .elem "th" [("class", "col-md-2")] [.text c]))],
         .elem "tbody" [] (body_rows text_browser sample_injected)]] := by
  decide

end Inventory
